import Mathlib

/-!
Verification development for the network performance monitor backend
(`backend/app/main.py` and `backend/app/models.py`).

Conventions of the shallow embedding:
* Python text is modelled as `List Char` restricted to ASCII semantics
  (`str.isdigit`, `\d`, `\s`, `str.strip` are read as their ASCII cores,
  which covers all tool output the parsers are aimed at).
* Python floats are modelled as rationals `ℚ` (the parsed values are
  decimal literals, so this is exact).
* Code that can raise an exception is modelled in `Except Unit`.
-/

/-! ## Character-level helpers (ASCII readings of Python's `\s`, `\d`) -/

/-- ASCII core of Python's whitespace class `\s` (also used by `str.strip()`
and `str.split()`). -/
def isWs (c : Char) : Bool :=
  c == ' ' || c == '\t' || c == '\n' || c == '\r' || c == '\x0b' || c == '\x0c'

/-- Numeric value of a decimal digit character. -/
def digitVal (c : Char) : Nat := c.toNat - 48

/-- Value of a list of decimal digit characters, most significant first. -/
def natOfDigits (l : List Char) : Nat := l.foldl (fun a c => 10 * a + digitVal c) 0

/-- `sub.isPrefixOf l || sub occurs later`: substring containment test,
modelling Python's `sub in text`. -/
def containsSub : List Char → List Char → Bool
  | [], sub => sub.isPrefixOf ([] : List Char)
  | l@(_ :: t), sub => sub.isPrefixOf l || containsSub t sub

/-! ## Latency parser — `main.py` lines 55-60

`PING_RTT = re.compile(r"time[=<]\s*(\d+)\s*ms", re.IGNORECASE)` and
`parse_ping_rtt_ms` returns `float(m.group(1))` for the first (leftmost)
match found by `PING_RTT.search`, else `None`. -/

/-- Attempt to match `time[=<]\s*(\d+)\s*ms` (case-insensitive) anchored at
the start of `l`; returns the integer captured by `(\d+)`.  The regex is
backtracking-free here because the character classes of adjacent pieces are
disjoint, so the greedy scan below is exactly the regex semantics. -/
def matchPingAt : List Char → Option Nat
  | c1 :: c2 :: c3 :: c4 :: c5 :: rest =>
    if c1.toLower == 't' && c2.toLower == 'i' && c3.toLower == 'm' && c4.toLower == 'e'
        && (c5 == '=' || c5 == '<') then
      let r1 := rest.dropWhile isWs
      let digs := r1.takeWhile Char.isDigit
      let r2 := (r1.dropWhile Char.isDigit).dropWhile isWs
      match digs, r2 with
      | [], _ => none
      | _ :: _, m :: s :: _ =>
        if m.toLower == 'm' && s.toLower == 's' then some (natOfDigits digs) else none
      | _ :: _, _ => none
    else none
  | _ => none

/-- `re.search`: try the pattern at every position, leftmost match wins. -/
def searchPing : List Char → Option Nat
  | [] => none
  | c :: t =>
    match matchPingAt (c :: t) with
    | some v => some v
    | none => searchPing t

/-- `parse_ping_rtt_ms` (main.py lines 57-60): first match of `PING_RTT`,
converted with `float`, else `None`. -/
def parse_ping_rtt_ms (l : List Char) : Option ℚ :=
  (searchPing l).map (fun n => (n : ℚ))

/-! ## Window summary — `main.py` lines 62-71

Line 9 of `main.py` reads `import statistics as stdev`, so the name `stdev`
is bound to the *module* `statistics`.  The call `stdev(deltas)` on line 70
therefore raises `TypeError: 'module' object is not callable` whenever it is
reached (window of three or more samples).  That branch is modelled as
`Except.error ()`. -/

/-- Python's `abs` on a rational value. -/
def pyAbs (q : ℚ) : ℚ := if q < 0 then -q else q

/-- Python's binary `max` on rational values. -/
def pyMax (a b : ℚ) : ℚ := if a < b then b else a

/-- `[abs(samples[i] - samples[i-1]) for i in range(1, len(samples))]`. -/
def pyDeltas (samples : List ℚ) : List ℚ :=
  (samples.zip samples.tail).map (fun p => pyAbs (p.2 - p.1))

/-- `summarize_window` (main.py lines 62-71); result is
`(jitter_ms, loss_pct)`.  The `stdev(deltas)` call — taken when
`len(deltas) > 1` — raises `TypeError` because `stdev` names the
`statistics` module itself, hence `.error ()`. -/
def summarize_window (samples : List ℚ) : Except Unit (ℚ × ℚ) :=
  if samples.isEmpty then .ok (0, 100)
  else if samples.length < 2 then .ok (0, 0)
  else
    let deltas := pyDeltas samples
    if 1 < deltas.length then .error ()
    else .ok (deltas.headD 0, 0)

/-! ## Window state dynamics — `main.py` lines 226-238

Per session: `window.append(rtt)` on success, then `window.pop(0)` once the
length exceeds 20; lost probes (`rtt is None`) never touch the window. -/

/-- One update of the RTT window (main.py lines 235-238). -/
def windowStep (w : List ℚ) (rtt : Option ℚ) : List ℚ :=
  match rtt with
  | none => w
  | some r =>
    let w2 := w ++ [r]
    if 20 < w2.length then w2.drop 1 else w2

/-- Window contents after a sequence of probe outcomes, starting empty. -/
def windowAfter (probes : List (Option ℚ)) : List ℚ :=
  probes.foldl windowStep []

/-- The last `n` elements of a list. -/
def lastN (n : Nat) (l : List α) : List α := l.drop (l.length - n)

/-! ## One iteration of the latency sampling loop — `main.py` lines 230-296 -/

/-- Observable actions of one iteration of `_stream_ping`'s loop. -/
inductive PingEvent
  | sample (idx : Nat) (rtt : Option ℚ) (jitter loss : ℚ)
  | saveCsv (rtt : ℚ)
  | errorFrame (idx : Nat)
  | sleepSec (s : ℚ)
deriving DecidableEq, Repr

/-- Loop-carried state of `_stream_ping`. -/
structure PingState where
  window : List ℚ
  errorCount : Nat
  idx : Nat
deriving DecidableEq, Repr

/-- One iteration of the `while True` loop of `_stream_ping`
(main.py lines 231-296), given the parsed outcome of the probe.
`Except.error ()` models an uncaught exception (the `summarize_window`
`TypeError`), which aborts the stream via the handler at line 302. -/
def pingStep (intervalMs : ℚ) (s : PingState) (rtt : Option ℚ) :
    Except Unit (PingState × List PingEvent) :=
  match rtt with
  | some r =>
    let w := windowStep s.window (some r)
    match summarize_window w with
    | .error () => .error ()
    | .ok (j, lp) =>
      .ok ({ window := w, errorCount := 0, idx := s.idx + 1 },
        [.sample s.idx (some r) j lp, .saveCsv r,
         .sleepSec (pyMax (1/10) (intervalMs / 1000))])
  | none =>
    let ec := s.errorCount + 1
    match summarize_window s.window with
    | .error () => .error ()
    | .ok (j, lp) =>
      let lossShown := if s.window.isEmpty then (100 : ℚ) else lp
      let events := [PingEvent.sample s.idx none j lossShown, .errorFrame s.idx]
      if 30 ≤ ec then
        .ok ({ window := s.window, errorCount := 0, idx := s.idx + 1 },
          events ++ [.sleepSec 5, .sleepSec (pyMax (1/10) (intervalMs / 1000))])
      else
        .ok ({ window := s.window, errorCount := ec, idx := s.idx + 1 },
          events ++ [.sleepSec (pyMax (1/10) (intervalMs / 1000))])

/-! ## Helper lemmas -/

theorem searchPing_eq_none_iff (l : List Char) :
    searchPing l = none ↔ ∀ i, matchPingAt (l.drop i) = none := by
  induction l with
  | nil =>
    constructor
    · intro _ i; cases i <;> rfl
    · intro _; rfl
  | cons c t ih =>
    cases h : matchPingAt (c :: t) with
    | some v =>
      simp only [searchPing, h]
      constructor
      · intro hfalse; cases hfalse
      · intro hall; have := hall 0; simp [h] at this
    | none =>
      simp only [searchPing, h]
      constructor
      · intro hnone i
        cases i with
        | zero => exact h
        | succ j => exact (ih.mp hnone) j
      · intro hall
        exact ih.mpr (fun i => hall (i + 1))

theorem searchPing_eq_some (l : List Char) (v : Nat) :
    searchPing l = some v →
    ∃ i, matchPingAt (l.drop i) = some v ∧ ∀ j < i, matchPingAt (l.drop j) = none := by
  induction l with
  | nil => intro hfalse; cases hfalse
  | cons c t ih =>
    intro hsome
    cases h : matchPingAt (c :: t) with
    | some w =>
      refine ⟨0, ?_, ?_⟩
      · simp only [searchPing, h] at hsome
        simpa [h] using hsome
      · intro j hj; omega
    | none =>
      simp only [searchPing, h] at hsome
      obtain ⟨i, hi, hlt⟩ := ih hsome
      refine ⟨i + 1, hi, ?_⟩
      intro j hj
      cases j with
      | zero => exact h
      | succ k => exact hlt k (by omega)

theorem summarize_window_ok_of_short (samples : List ℚ) (h : samples.length ≤ 2) :
    ∃ j lp, summarize_window samples = .ok (j, lp) := by
  rcases samples with _ | ⟨a, _ | ⟨b, _ | ⟨c, t⟩⟩⟩
  · exact ⟨0, 100, rfl⟩
  · exact ⟨0, 0, rfl⟩
  · exact ⟨pyAbs (b - a), 0, rfl⟩
  · simp only [List.length_cons] at h; omega

theorem foldl_windowStep (probes : List (Option ℚ)) :
    ∀ w : List ℚ, w.length ≤ 20 →
      probes.foldl windowStep w = lastN 20 (w ++ probes.filterMap id) := by
  induction probes with
  | nil =>
    intro w hw
    simp [lastN, Nat.sub_eq_zero_of_le hw]
  | cons p ps ih =>
    intro w hw
    rw [List.foldl_cons]
    cases p with
    | none =>
      rw [show windowStep w none = w from rfl, ih w hw]
      simp [List.filterMap_cons]
    | some r =>
      have hcase : windowStep w (some r) =
          if 20 < (w ++ [r]).length then (w ++ [r]).drop 1 else (w ++ [r]) := rfl
      rw [List.filterMap_cons]
      simp only [id]
      by_cases h20 : 20 < (w ++ [r]).length
      · have hlen : (w ++ [r]).length = 21 := by
          simp only [List.length_append, List.length_singleton] at h20 ⊢; omega
        have hle : ((w ++ [r]).drop 1).length ≤ 20 := by
          rw [List.length_drop, hlen]
        rw [hcase, if_pos h20, ih _ hle]
        rw [show w ++ r :: (ps.filterMap id) = (w ++ [r]) ++ ps.filterMap id by simp]
        rw [← List.drop_append_of_le_length (by rw [hlen]; omega)]
        unfold lastN
        rw [List.length_drop, List.drop_drop]
        congr 1
        rw [List.length_append, hlen]
        omega
      · have hle : (w ++ [r]).length ≤ 20 := by omega
        rw [hcase, if_neg h20, ih _ hle]
        congr 1
        simp

/-! ## Claim theorems -/

/-- C1 (code bug evidence): the spec says a window of three or more RTTs
yields jitter equal to the standard deviation of successive absolute
differences, but `summarize_window [10, 20, 15]` raises `TypeError`
(`import statistics as stdev` binds the module, and `stdev(deltas)` calls
it) — modelled as `.error ()`.  The empty, single and two-element cases do
behave as the claim states (jitter `0.0`, `0.0`, and the single absolute
difference). -/
theorem jitter_stdev_crash :
    summarize_window [10, 20, 15] = .error ()
    ∧ summarize_window [] = .ok (0, 100)
    ∧ summarize_window [10] = .ok (0, 0)
    ∧ summarize_window [10, 20] = .ok (10, 0) := by
  refine ⟨?_, rfl, rfl, ?_⟩ <;> norm_num [summarize_window, pyDeltas, pyAbs]

/-- C6: the RTT window after any sequence of probe outcomes equals exactly
the last (at most) 20 successfully parsed RTT values, in arrival order:
it is bounded by 20, holds only successful samples, and eviction is FIFO
(the dropped element is always the oldest). -/
theorem window_fifo_bound (probes : List (Option ℚ)) :
    windowAfter probes = lastN 20 (probes.filterMap id)
    ∧ (windowAfter probes).length ≤ 20 := by
  have h0 : windowAfter probes = lastN 20 (probes.filterMap id) := by
    unfold windowAfter
    rw [foldl_windowStep probes [] (by simp)]
    simp
  refine ⟨h0, ?_⟩
  rw [h0]
  unfold lastN
  rw [List.length_drop]
  omega

/-- C7 (code bug evidence): the claim that window loss is `100.0` exactly
on the empty window and `0.0` on every non-empty window holds for windows
of one or two samples, but a window of three or more samples makes
`summarize_window` raise `TypeError` (the `stdev` module-call bug), so no
loss value is produced at all; a lost-probe iteration with such a window
aborts the stream instead of emitting a `loss_pct_window` frame. -/
theorem loss_pct_window_crash :
    summarize_window [] = .ok (0, 100)
    ∧ summarize_window [7] = .ok (0, 0)
    ∧ summarize_window [7, 9] = .ok (2, 0)
    ∧ summarize_window [10, 20, 15] = .error ()
    ∧ pingStep 1000 ⟨[10, 20, 15], 0, 3⟩ none = .error () := by
  refine ⟨rfl, rfl, ?_, ?_, ?_⟩ <;>
    norm_num [pingStep, summarize_window, pyDeltas, pyAbs]

theorem parse_ping_none_iff (l : List Char) :
    parse_ping_rtt_ms l = none ↔ searchPing l = none := by
  unfold parse_ping_rtt_ms
  cases h : searchPing l <;> simp [h]

/-- C5 counterexample: the text `"time=5ms or time=37ms"` contains
`time=37ms`, yet the latency parser returns `5.0` — `re.search` takes the
leftmost match, not the one named by the claim — so the claim as stated is
false. -/
theorem ping_rtt_first_match_cex :
    parse_ping_rtt_ms (String.toList "time=5ms or time=37ms") = some 5
    ∧ containsSub (String.toList "time=5ms or time=37ms") (String.toList "time=37ms") = true
    ∧ (5 : ℚ) ≠ 37 := by
  refine ⟨?_, by decide, by norm_num⟩
  have h : searchPing (String.toList "time=5ms or time=37ms") = some 5 := by decide
  simp only [parse_ping_rtt_ms, h, Option.map_some]
  norm_num

/-- C5 amended: the latency parser returns the integer of the leftmost
occurrence of the case-insensitive pattern `time[=<]\s*(\d+)\s*ms` as a
float, and absent exactly when no position matches (a lost probe, not a
parse error); in particular `"time=37ms"` parses to `37.0`, a reply line
with `time<1ms` parses to `1.0`, and `"Request timed out."` parses to
absent. -/
theorem ping_rtt_leftmost_match :
    (∀ l : List Char, parse_ping_rtt_ms l = none ↔ ∀ i, matchPingAt (l.drop i) = none)
    ∧ (∀ (l : List Char) (v : ℚ), parse_ping_rtt_ms l = some v →
        ∃ (i : Nat) (n : Nat), v = (n : ℚ) ∧ matchPingAt (l.drop i) = some n
          ∧ ∀ j < i, matchPingAt (l.drop j) = none)
    ∧ parse_ping_rtt_ms (String.toList "time=37ms") = some 37
    ∧ parse_ping_rtt_ms (String.toList "Reply from 8.8.8.8: bytes=32 time<1ms TTL=117") = some 1
    ∧ parse_ping_rtt_ms (String.toList "Request timed out.") = none := by
  refine ⟨?_, ?_, ?_, ?_, ?_⟩
  · intro l
    rw [parse_ping_none_iff l]
    exact searchPing_eq_none_iff l
  · intro l v hv
    unfold parse_ping_rtt_ms at hv
    cases hs : searchPing l with
    | none => rw [hs] at hv; cases hv
    | some n =>
      rw [hs] at hv
      have hv' : (n : ℚ) = v := Option.some.inj hv
      obtain ⟨i, hi, hlt⟩ := searchPing_eq_some l n hs
      exact ⟨i, n, hv'.symm, hi, hlt⟩
  · have h : searchPing (String.toList "time=37ms") = some 37 := by decide
    simp only [parse_ping_rtt_ms, h, Option.map_some]
    norm_num
  · have h : searchPing (String.toList "Reply from 8.8.8.8: bytes=32 time<1ms TTL=117")
        = some 1 := by decide
    simp only [parse_ping_rtt_ms, h, Option.map_some]
    norm_num
  · exact (parse_ping_none_iff _).mpr (by decide)

theorem ping_rtt_leftmost_match_witness :
    ∃ (i : Nat) (n : Nat), (5 : ℚ) = (n : ℚ)
      ∧ matchPingAt ((String.toList "time=5ms or time=37ms").drop i) = some n
      ∧ ∀ j < i, matchPingAt ((String.toList "time=5ms or time=37ms").drop j) = none := by
  apply ping_rtt_leftmost_match.2.1
  have h : searchPing (String.toList "time=5ms or time=37ms") = some 5 := by decide
  simp only [parse_ping_rtt_ms, h, Option.map_some]
  norm_num

/-- C8: in the latency sampling loop, any successfully completed iteration
on a successful probe leaves the consecutive-failure counter at 0; on a lost
probe, if the counter reaches the threshold 30 the iteration emits a 5-second
cooldown sleep and resets the counter to 0 (otherwise the counter just
increments); and a lost-probe iteration from any reachable window state
(length ≤ 2) never closes the stream: it returns normally, still emits the
null sample frame, and advances to the next iteration with the window
intact. -/
theorem failure_counter_cooldown :
    (∀ (iv : ℚ) (s : PingState) (s' : PingState) (r : ℚ) (ev : List PingEvent),
        pingStep iv s (some r) = .ok (s', ev) → s'.errorCount = 0)
    ∧ (∀ (iv : ℚ) (s : PingState) (s' : PingState) (ev : List PingEvent),
        pingStep iv s none = .ok (s', ev) →
          (30 ≤ s.errorCount + 1 → s'.errorCount = 0 ∧ PingEvent.sleepSec 5 ∈ ev)
          ∧ (s.errorCount + 1 < 30 → s'.errorCount = s.errorCount + 1))
    ∧ (∀ (iv : ℚ) (s : PingState), s.window.length ≤ 2 →
        ∃ s' ev, pingStep iv s none = .ok (s', ev)
          ∧ (∃ j lp, PingEvent.sample s.idx none j lp ∈ ev)
          ∧ s'.idx = s.idx + 1 ∧ s'.window = s.window) := by
  refine ⟨?_, ?_, ?_⟩
  · intro iv s s' r ev h
    simp only [pingStep] at h
    split at h
    · exact Except.noConfusion h
    · rename_i j lp heq
      simp only [Except.ok.injEq, Prod.mk.injEq] at h
      rw [← h.1]
  · intro iv s s' ev h
    simp only [pingStep] at h
    split at h
    · exact Except.noConfusion h
    · rename_i j lp heq
      split at h
      · rename_i h30
        simp only [Except.ok.injEq, Prod.mk.injEq] at h
        constructor
        · intro _
          refine ⟨by rw [← h.1], ?_⟩
          rw [← h.2]
          simp
        · intro hlt; omega
      · rename_i h30
        simp only [Except.ok.injEq, Prod.mk.injEq] at h
        constructor
        · intro hge; omega
        · intro _; rw [← h.1]
  · intro iv s hlen
    obtain ⟨j, lp, hok⟩ := summarize_window_ok_of_short s.window hlen
    by_cases h30 : 30 ≤ s.errorCount + 1
    · refine ⟨⟨s.window, 0, s.idx + 1⟩,
        [PingEvent.sample s.idx none j (if s.window.isEmpty then (100 : ℚ) else lp),
         PingEvent.errorFrame s.idx, PingEvent.sleepSec 5,
         PingEvent.sleepSec (pyMax (1/10) (iv / 1000))], ?_,
        ⟨j, (if s.window.isEmpty then (100 : ℚ) else lp), by simp⟩, rfl, rfl⟩
      simp only [pingStep, hok]
      rw [if_pos h30]
      rfl
    · refine ⟨⟨s.window, s.errorCount + 1, s.idx + 1⟩,
        [PingEvent.sample s.idx none j (if s.window.isEmpty then (100 : ℚ) else lp),
         PingEvent.errorFrame s.idx,
         PingEvent.sleepSec (pyMax (1/10) (iv / 1000))], ?_,
        ⟨j, (if s.window.isEmpty then (100 : ℚ) else lp), by simp⟩, rfl, rfl⟩
      simp only [pingStep, hok]
      rw [if_neg h30]
      rfl

/-- Witness for C8 at concrete states: a success from counter 5 resets to
0; a 30th consecutive failure sleeps 5 s and resets; a failure at counter 3
keeps the stream open and emits the sample frame. -/
theorem failure_counter_cooldown_witness :
    ((⟨[7], 0, 1⟩ : PingState).errorCount = 0)
    ∧ ((⟨[5, 7], 0, 3⟩ : PingState).errorCount = 0
        ∧ PingEvent.sleepSec 5 ∈
            [PingEvent.sample 2 none 2 0, PingEvent.errorFrame 2,
             PingEvent.sleepSec 5, PingEvent.sleepSec 1])
    ∧ (∃ s' ev, pingStep 1000 ⟨[5, 7], 3, 0⟩ none = .ok (s', ev)
        ∧ (∃ j lp, PingEvent.sample 0 none j lp ∈ ev)
        ∧ s'.idx = 0 + 1 ∧ s'.window = [5, 7]) := by
  refine ⟨?_, ?_, ?_⟩
  · exact failure_counter_cooldown.1 1000 ⟨[], 5, 0⟩ ⟨[7], 0, 1⟩ 7
      [.sample 0 (some 7) 0 0, .saveCsv 7, .sleepSec 1]
      (by norm_num [pingStep, windowStep, summarize_window, pyDeltas, pyAbs, pyMax])
  · exact (failure_counter_cooldown.2.1 1000 ⟨[5, 7], 29, 2⟩ ⟨[5, 7], 0, 3⟩
      [.sample 2 none 2 0, .errorFrame 2, .sleepSec 5, .sleepSec 1]
      (by norm_num [pingStep, summarize_window, pyDeltas, pyAbs, pyMax])).1 (by norm_num)
  · exact failure_counter_cooldown.2.2 1000 ⟨[5, 7], 3, 0⟩ (by norm_num)

/-! ## Path-hop line parser — `main.py` lines 161-197 (`_stream_traceroute`)

Each raw line is `.strip()`ed; a line qualifies as a hop record iff it is
non-empty and its first character is then a digit.  Hop number comes from
`int(text.split()[0])` (line discarded if that raises); RTT readings are
`re.findall(r"<?\d+(?:\.\d+)?\s*ms", text)` cleaned of `ms`, whitespace
and `<` and parsed as floats, the hop RTT being their minimum (absent if
none); the address is the last `re.findall(r"(\d{1,3}(?:\.\d{1,3}){3})")`
match, else `"*"`.  Both regexes are implemented below as deterministic
scanners: the character classes of adjacent pieces are disjoint, so greedy
matching without backtracking coincides with the regex engine, and the
scanners advance one position on failure / past the match on success
exactly like `re.findall`. -/
def dropTrail (l : List Char) : List Char := (l.reverse.dropWhile isWs).reverse

def pyStrip (l : List Char) : List Char := dropTrail (l.dropWhile isWs)

def firstNonSpace (l : List Char) : Option Char := (l.dropWhile isWs).head?

def firstTok (l : List Char) : List Char := l.takeWhile (fun c => !(isWs c))

def pyIntGo : List Char → Nat → Option Nat
  | [], acc => some acc
  | '_' :: c :: rest, acc => if c.isDigit then pyIntGo rest (10 * acc + digitVal c) else none
  | c :: rest, acc => if c.isDigit then pyIntGo rest (10 * acc + digitVal c) else none

def pyIntTok (tok : List Char) : Option Nat :=
  match tok with
  | [] => none
  | c :: rest => if c.isDigit then pyIntGo rest (digitVal c) else none

def fracVal (l : List Char) : ℚ := (natOfDigits l : ℚ) / ((10 : ℚ) ^ l.length)

def rttMatchAt (l : List Char) : Option (ℚ × List Char) :=
  let l1 := if l.head? = some '<' then l.tail else l
  let digs := l1.takeWhile Char.isDigit
  if digs.isEmpty then none
  else
    let l2 := l1.dropWhile Char.isDigit
    let fd : Option (List Char) :=
      match l2 with
      | '.' :: rest =>
        let f := rest.takeWhile Char.isDigit
        if f.isEmpty then none else some f
      | _ => none
    let val : ℚ :=
      match fd with
      | none => (natOfDigits digs : ℚ)
      | some f => (natOfDigits digs : ℚ) + fracVal f
    let l3 :=
      match fd with
      | some _ => (l2.drop 1).dropWhile Char.isDigit
      | none => l2
    let l4 := l3.dropWhile isWs
    match l4 with
    | 'm' :: 's' :: rest => some (val, rest)
    | _ => none

def rttScanGo : Nat → List Char → List ℚ
  | 0, _ => []
  | _ + 1, [] => []
  | fuel + 1, c :: t =>
    match rttMatchAt (c :: t) with
    | some (v, rest) => v :: rttScanGo fuel rest
    | none => rttScanGo fuel t

def rttFindAll (l : List Char) : List ℚ := rttScanGo l.length l

def quadAt (l : List Char) : Option (List Char × List Char) :=
  let ds := l.takeWhile Char.isDigit
  if ds.length = 0 ∨ 3 < ds.length then none
  else some (ds, l.drop ds.length)

def ipv4MatchAt (l : List Char) : Option (List Char × List Char) :=
  match quadAt l with
  | none => none
  | some (d1, r1) =>
    match r1 with
    | '.' :: r1' =>
      match quadAt r1' with
      | none => none
      | some (d2, r2) =>
        match r2 with
        | '.' :: r2' =>
          match quadAt r2' with
          | none => none
          | some (d3, r3) =>
            match r3 with
            | '.' :: r3' =>
              let ds := r3'.takeWhile Char.isDigit
              if ds.isEmpty then none
              else
                let tk := ds.take 3
                some (d1 ++ '.' :: (d2 ++ '.' :: (d3 ++ '.' :: tk)), r3'.drop tk.length)
            | _ => none
        | _ => none
    | _ => none

def ipv4ScanGo : Nat → List Char → List (List Char)
  | 0, _ => []
  | _ + 1, [] => []
  | fuel + 1, c :: t =>
    match ipv4MatchAt (c :: t) with
    | some (m, rest) => m :: ipv4ScanGo fuel rest
    | none => ipv4ScanGo fuel t

def ipv4FindAll (l : List Char) : List (List Char) := ipv4ScanGo l.length l

def listMin : List ℚ → Option ℚ
  | [] => none
  | x :: xs => some (xs.foldl (fun a b => if b < a then b else a) x)

structure Hop where
  hop : Nat
  ip : List Char
  rtt : Option ℚ
deriving DecidableEq, Repr

def parseHopLine (raw : List Char) : Option Hop :=
  match (pyStrip raw).head? with
  | none => none
  | some c =>
    if c.isDigit then
      match pyIntTok (firstTok (pyStrip raw)) with
      | none => none
      | some n =>
        some { hop := n,
               ip := ((ipv4FindAll (pyStrip raw)).getLast?).getD ['*'],
               rtt := listMin (rttFindAll (pyStrip raw)) }
    else none

example : rttFindAll (String.toList "3  12 ms  15 ms  <1 ms  10.0.0.1") = [12, 15, 1] := by decide
example : ipv4FindAll (String.toList "3  12 ms  15 ms  <1 ms  10.0.0.1")
    = [String.toList "10.0.0.1"] := by decide
example : parseHopLine (String.toList "3  12 ms  15 ms  <1 ms  10.0.0.1")
    = some ⟨3, String.toList "10.0.0.1", some 1⟩ := by decide
example : parseHopLine (String.toList "Tracing route to example.com") = none := by decide

theorem head_dropWhile_false (p : Char → Bool) (l : List Char) (c : Char)
    (h : (l.dropWhile p).head? = some c) : p c = false := by
  induction l with
  | nil => cases h
  | cons a t ih =>
    by_cases hp : p a = true
    · rw [List.dropWhile_cons_of_pos hp] at h
      exact ih h
    · rw [List.dropWhile_cons_of_neg hp] at h
      obtain rfl : a = c := by injection h
      simpa using hp

theorem head_dropTrail (m : List Char) (c : Char) (hc : m.head? = some c)
    (hw : isWs c = false) : (dropTrail m).head? = some c := by
  cases m with
  | nil => cases hc
  | cons a t =>
    obtain rfl : a = c := by injection hc
    unfold dropTrail
    rw [List.reverse_cons, List.dropWhile_append]
    split
    · simp [List.dropWhile, hw]
    · rw [List.reverse_append]
      simp

theorem head_pyStrip (raw : List Char) (c : Char) (h : firstNonSpace raw = some c) :
    (pyStrip raw).head? = some c := by
  unfold pyStrip
  exact head_dropTrail _ c h (head_dropWhile_false isWs raw c h)

theorem pyStrip_nil (raw : List Char) (h : firstNonSpace raw = none) :
    pyStrip raw = [] := by
  unfold firstNonSpace at h
  rw [List.head?_eq_none_iff] at h
  unfold pyStrip dropTrail
  rw [h]
  rfl

/-- C4: the per-line hop parser (i) yields no hop when the first non-space
character is not a digit, (ii) discards a qualifying line whose first token
does not parse as an integer, (iii) on success takes the hop number from
the first token, the RTT as the minimum of all `<?digits(.digits)? ms`
readings found (absent if none), and the address as the last dotted-quad
found on the line, else `"*"`; and (iv) parses
`"3  12 ms  15 ms  <1 ms  10.0.0.1"` to hop 3, address `10.0.0.1`,
round-trip 1.0. -/
theorem hop_line_parser_spec :
    (∀ raw : List Char, (∀ c, firstNonSpace raw = some c → c.isDigit = false) →
        parseHopLine raw = none)
    ∧ (∀ raw : List Char, pyIntTok (firstTok (pyStrip raw)) = none →
        parseHopLine raw = none)
    ∧ (∀ (raw : List Char) (hp : Hop), parseHopLine raw = some hp →
        pyIntTok (firstTok (pyStrip raw)) = some hp.hop
        ∧ hp.rtt = listMin (rttFindAll (pyStrip raw))
        ∧ hp.ip = ((ipv4FindAll (pyStrip raw)).getLast?).getD ['*'])
    ∧ parseHopLine (String.toList "3  12 ms  15 ms  <1 ms  10.0.0.1")
        = some ⟨3, String.toList "10.0.0.1", some 1⟩ := by
  refine ⟨?_, ?_, ?_, by decide⟩
  · intro raw hnd
    unfold parseHopLine
    cases hfs : firstNonSpace raw with
    | none => rw [pyStrip_nil raw hfs]; rfl
    | some c =>
      rw [head_pyStrip raw c hfs]
      simp [hnd c hfs]
  · intro raw hint
    unfold parseHopLine
    cases hh : (pyStrip raw).head? with
    | none => rfl
    | some c =>
      by_cases hd : c.isDigit = true
      · simp [hd, hint]
      · simp [hd]
  · intro raw hp hsome
    unfold parseHopLine at hsome
    cases hh : (pyStrip raw).head? with
    | none =>
      rw [hh] at hsome
      exact Option.noConfusion hsome
    | some c =>
      rw [hh] at hsome
      have hsome' : (if c.isDigit = true then
          (match pyIntTok (firstTok (pyStrip raw)) with
           | none => none
           | some n =>
             some { hop := n,
                    ip := ((ipv4FindAll (pyStrip raw)).getLast?).getD ['*'],
                    rtt := listMin (rttFindAll (pyStrip raw)) } : Option Hop)
          else none) = some hp := hsome
      by_cases hd : c.isDigit = true
      · rw [if_pos hd] at hsome'
        cases hint : pyIntTok (firstTok (pyStrip raw)) with
        | none =>
          rw [hint] at hsome'
          exact Option.noConfusion hsome'
        | some n =>
          rw [hint] at hsome'
          obtain rfl : _ = hp := Option.some.inj hsome'
          exact ⟨rfl, rfl, rfl⟩
      · rw [if_neg hd] at hsome'
        exact Option.noConfusion hsome'

/-- Witness for C4 at concrete lines: a non-digit line yields no hop, a
qualifying line with a non-integer first token is discarded, and the
example line's hop number is 3. -/
theorem hop_line_parser_spec_witness :
    parseHopLine (String.toList "Trace complete.") = none
    ∧ parseHopLine (String.toList "3a  12 ms  10.0.0.9") = none
    ∧ pyIntTok (firstTok (pyStrip (String.toList "3  12 ms  15 ms  <1 ms  10.0.0.1")))
        = some 3 := by
  refine ⟨?_, ?_, ?_⟩
  · exact hop_line_parser_spec.1 _ (by decide)
  · exact hop_line_parser_spec.2.1 _ (by decide)
  · exact (hop_line_parser_spec.2.2.1 _ ⟨3, String.toList "10.0.0.1", some 1⟩ (by decide)).1

/-! ## Throughput (iperf3) JSON parser — `main.py` lines 413-434

`parse_iperf3_json` reads `data.get("end", {})`, selects
`end_data.get("sum") or end_data.get("sum_received") or {}` (Python `or`:
first *truthy* operand), computes `bandwidth_mbps = round(bps/1e6, 3)` from
`sum_data.get("bits_per_second", 0)`, and sets `jitter_ms`/`loss_pct` only
when `"jitter_ms" in sum_data`, with
`loss_pct = round(100*(lost/packets), 3) if packets else 0.0`. -/

/-- JSON values. -/
inductive Json where
  | null
  | bool (b : Bool)
  | num (q : ℚ)
  | str (s : String)
  | arr (xs : List Json)
  | obj (kvs : List (String × Json))

/-- Dictionary lookup on a JSON object (`d[k]` view, first binding wins);
`none` for a missing key or a non-object. -/
def jGet (j : Json) (k : String) : Option Json :=
  match j with
  | .obj kvs => (kvs.find? (fun p => p.1 == k)).map (fun p => p.2)
  | _ => none

/-- `j.get(k, dflt)`: raises (`.error`) when the receiver is not a dict. -/
def pyGetD (j : Json) (k : String) (dflt : Json) : Except Unit Json :=
  match j with
  | .obj _ => .ok ((jGet j k).getD dflt)
  | _ => .error ()

/-- `j.get(k)` (default `None`, surfaced as `Option`). -/
def pyGetOpt (j : Json) (k : String) : Except Unit (Option Json) :=
  match j with
  | .obj _ => .ok (jGet j k)
  | _ => .error ()

/-- `k in j` for a dict receiver. -/
def pyHasKey (j : Json) (k : String) : Except Unit Bool :=
  match j with
  | .obj kvs => .ok (kvs.any (fun p => p.1 == k))
  | _ => .error ()

/-- Python truthiness of a JSON value. -/
def jsonTruthy : Json → Bool
  | .null => false
  | .bool b => b
  | .num q => !(decide (q = 0))
  | .str s => !(s == "")
  | .arr xs => !xs.isEmpty
  | .obj kvs => !kvs.isEmpty

/-- `dict.get` results seen by `or`: Python `None` is falsy. -/
def optJson : Option Json → Json
  | none => .null
  | some v => v

/-- Python's `a or b`: `a` if truthy, else `b`. -/
def pyOr (a b : Json) : Json := if jsonTruthy a then a else b

/-- Numeric reading of a JSON value, as used by Python arithmetic and
`float(...)` on decoded JSON (numbers and booleans; anything else raises). -/
def toNum : Json → Except Unit ℚ
  | .num q => .ok q
  | .bool b => .ok (if b then 1 else 0)
  | _ => .error ()

/-- Round-half-to-even to an integer (Python's `round`). -/
def halfEvenRound (x : ℚ) : ℤ :=
  let f := ⌊x⌋
  let r := x - (f : ℚ)
  if r < 1/2 then f
  else if 1/2 < r then f + 1
  else if f % 2 = 0 then f else f + 1

/-- `round(x, 3)`. -/
def round3 (x : ℚ) : ℚ := ((halfEvenRound (1000 * x) : ℤ) : ℚ) / 1000

/-- `end_data.get("sum") or end_data.get("sum_received") or {}`
(main.py line 421). -/
def select_sum_data (endData : Json) : Except Unit Json := do
  let s ← pyGetOpt endData "sum"
  let sr ← pyGetOpt endData "sum_received"
  pure (pyOr (optJson s) (pyOr (optJson sr) (.obj [])))

/-- Summary slice of `parse_iperf3_json`'s result (main.py lines 417-434):
`bandwidth_mbps`, and `jitter_ms`/`loss_pct` present only when the selected
summary carries a `jitter_ms` field.  (The `intervals` part of the result,
lines 437-479, never touches these three fields.) -/
structure IperfSummary where
  bandwidth_mbps : ℚ
  jitter_ms : Option ℚ
  loss_pct : Option ℚ
deriving DecidableEq, Repr

/-- `parse_iperf3_json` (main.py lines 419-434), restricted to the summary
statistics the claims describe.  `.error ()` models an uncaught Python
exception (attribute/type errors on malformed shapes). -/
def parse_iperf3_summary (data : Json) : Except Unit IperfSummary := do
  let endData ← pyGetD data "end" (.obj [])
  let sumData ← select_sum_data endData
  let bpsJ ← pyGetD sumData "bits_per_second" (.num 0)
  let bps ← toNum bpsJ
  let hasJ ← pyHasKey sumData "jitter_ms"
  match hasJ with
  | true =>
    let jJ ← pyGetD sumData "jitter_ms" (.num 0)
    let j ← toNum jJ
    let pv ← pyGetD sumData "packets" (.num 0)
    let lJ ← pyGetD sumData "lost_packets" (.num 0)
    match jsonTruthy pv with
    | true =>
      let p ← toNum pv
      let lost ← toNum lJ
      pure ⟨round3 (bps / 1000000), some j, some (round3 (100 * (lost / p)))⟩
    | false =>
      pure ⟨round3 (bps / 1000000), some j, some 0⟩
  | false =>
    pure ⟨round3 (bps / 1000000), none, none⟩

theorem bindOk {α β : Type} (a : α) (f : α → Except Unit β) :
    (Except.ok a >>= f) = f a := rfl

/-- C2 amended: the summary is taken from the sent-side `"sum"` entry
whenever it is present and truthy (non-null, non-empty); the parser falls
back to the received-side `"sum_received"` entry when the sent-side entry
is absent *or falsy* (e.g. an empty object), and to `{}` when both are
absent or falsy. -/
theorem iperf_sum_preference :
    (∀ (kvs : List (String × Json)) (v : Json),
        jGet (Json.obj kvs) "sum" = some v → jsonTruthy v = true →
        select_sum_data (Json.obj kvs) = .ok v)
    ∧ (∀ (kvs : List (String × Json)) (w : Json),
        (∀ v, jGet (Json.obj kvs) "sum" = some v → jsonTruthy v = false) →
        jGet (Json.obj kvs) "sum_received" = some w → jsonTruthy w = true →
        select_sum_data (Json.obj kvs) = .ok w)
    ∧ (∀ kvs : List (String × Json),
        (∀ v, jGet (Json.obj kvs) "sum" = some v → jsonTruthy v = false) →
        (∀ w, jGet (Json.obj kvs) "sum_received" = some w → jsonTruthy w = false) →
        select_sum_data (Json.obj kvs) = .ok (Json.obj [])) := by
  have hsel : ∀ kvs : List (String × Json),
      select_sum_data (Json.obj kvs)
        = .ok (pyOr (optJson (jGet (Json.obj kvs) "sum"))
            (pyOr (optJson (jGet (Json.obj kvs) "sum_received")) (.obj []))) :=
    fun kvs => rfl
  refine ⟨?_, ?_, ?_⟩
  · intro kvs v hv htv
    rw [hsel, hv]
    show Except.ok (pyOr v _) = _
    unfold pyOr
    rw [htv]
    simp
  · intro kvs w hs hw htw
    rw [hsel, hw]
    cases hv : jGet (Json.obj kvs) "sum" with
    | none =>
      show Except.ok (pyOr Json.null (pyOr w (Json.obj []))) = _
      unfold pyOr
      rw [htw]
      simp [jsonTruthy]
    | some v =>
      have := hs v hv
      show Except.ok (pyOr v (pyOr w (Json.obj []))) = _
      unfold pyOr
      rw [this, htw]
      simp
  · intro kvs hs hsr
    rw [hsel]
    cases hv : jGet (Json.obj kvs) "sum" with
    | none =>
      cases hw : jGet (Json.obj kvs) "sum_received" with
      | none =>
        show Except.ok (pyOr Json.null (pyOr Json.null (Json.obj []))) = _
        simp [pyOr, jsonTruthy]
      | some w =>
        have := hsr w hw
        show Except.ok (pyOr Json.null (pyOr w (Json.obj []))) = _
        unfold pyOr
        rw [this]
        simp [jsonTruthy]
    | some v =>
      have hv' := hs v hv
      cases hw : jGet (Json.obj kvs) "sum_received" with
      | none =>
        show Except.ok (pyOr v (pyOr Json.null (Json.obj []))) = _
        unfold pyOr
        rw [hv']
        simp [jsonTruthy]
      | some w =>
        have hw' := hsr w hw
        show Except.ok (pyOr v (pyOr w (Json.obj []))) = _
        unfold pyOr
        rw [hv', hw']
        simp

/-- Witness for the C2 amended theorem: a truthy sent-side summary is
selected even when a received-side summary is also present. -/
theorem iperf_sum_preference_witness :
    select_sum_data (Json.obj [("sum", Json.obj [("bits_per_second", Json.num 1)]),
        ("sum_received", Json.obj [])])
      = .ok (Json.obj [("bits_per_second", Json.num 1)]) :=
  iperf_sum_preference.1 _ _ (by rfl) (by rfl)

/-- C2 counterexample: an `end` section that contains *both* summaries,
the sent-side one being the empty object, nevertheless selects the
received-side summary (`a or b` falls back on any falsy value, not only on
absence): the parsed bandwidth is 1.0, taken from `sum_received`, whereas a
document with only that sent-side summary yields bandwidth 0.0. -/
theorem iperf_sum_fallback_cex :
    jGet (Json.obj [("sum", Json.obj []),
        ("sum_received", Json.obj [("bits_per_second", Json.num 1000000)])]) "sum"
      = some (Json.obj [])
    ∧ select_sum_data (Json.obj [("sum", Json.obj []),
        ("sum_received", Json.obj [("bits_per_second", Json.num 1000000)])])
      = .ok (Json.obj [("bits_per_second", Json.num 1000000)])
    ∧ parse_iperf3_summary (Json.obj [("end", Json.obj [("sum", Json.obj []),
        ("sum_received", Json.obj [("bits_per_second", Json.num 1000000)])])])
      = .ok ⟨1, none, none⟩
    ∧ parse_iperf3_summary (Json.obj [("end", Json.obj [("sum", Json.obj [])])])
      = .ok ⟨0, none, none⟩ := by
  refine ⟨rfl, rfl, ?_, ?_⟩
  · have h : parse_iperf3_summary (Json.obj [("end", Json.obj [("sum", Json.obj []),
        ("sum_received", Json.obj [("bits_per_second", Json.num 1000000)])])])
        = .ok ⟨round3 ((1000000 : ℚ) / 1000000), none, none⟩ := rfl
    rw [h]
    norm_num [round3, halfEvenRound]
  · have h : parse_iperf3_summary (Json.obj [("end", Json.obj [("sum", Json.obj [])])])
        = .ok ⟨round3 ((0 : ℚ) / 1000000), none, none⟩ := rfl
    rw [h]
    norm_num [round3, halfEvenRound]

/-- C9: for a well-formed document (the selected summary's numeric fields
are JSON numbers), `bandwidth_mbps = round(bits_per_second/1e6, 3)`; the
result carries `jitter_ms`/`loss_pct` exactly when the selected summary has
a `jitter_ms` key, in which case the jitter is copied through and
`loss_pct = round(100*lost/packets, 3)` (`0.0` when `packets` is falsy,
i.e. `0`); and the concrete document with
`end.sum.bits_per_second = 94_000_000` and no jitter field yields
`bandwidth_mbps = 94.0` with both optional fields absent. -/
theorem iperf_summary_fields :
    (∀ (data e sd : Json) (bps : ℚ),
        pyGetD data "end" (Json.obj []) = .ok e →
        select_sum_data e = .ok sd →
        pyGetD sd "bits_per_second" (Json.num 0) = .ok (Json.num bps) →
        (pyHasKey sd "jitter_ms" = .ok false →
          parse_iperf3_summary data = .ok ⟨round3 (bps / 1000000), none, none⟩)
        ∧ (∀ (j lost p : ℚ) (pv : Json),
            pyHasKey sd "jitter_ms" = .ok true →
            pyGetD sd "jitter_ms" (Json.num 0) = .ok (Json.num j) →
            pyGetD sd "packets" (Json.num 0) = .ok pv →
            pyGetD sd "lost_packets" (Json.num 0) = .ok (Json.num lost) →
            (pv = Json.num p → jsonTruthy pv = true →
              parse_iperf3_summary data
                = .ok ⟨round3 (bps / 1000000), some j, some (round3 (100 * (lost / p)))⟩)
            ∧ (jsonTruthy pv = false →
              parse_iperf3_summary data = .ok ⟨round3 (bps / 1000000), some j, some 0⟩)))
    ∧ parse_iperf3_summary
        (Json.obj [("end", Json.obj [("sum", Json.obj [("bits_per_second", Json.num 94000000)])])])
        = .ok ⟨94, none, none⟩ := by
  constructor
  · intro data e sd bps h1 h2 h3
    have hbase : parse_iperf3_summary data = (pyHasKey sd "jitter_ms" >>= fun hasJ =>
        match hasJ with
        | true =>
          pyGetD sd "jitter_ms" (.num 0) >>= fun jJ =>
          toNum jJ >>= fun j =>
          pyGetD sd "packets" (.num 0) >>= fun pv =>
          pyGetD sd "lost_packets" (.num 0) >>= fun lJ =>
          match jsonTruthy pv with
          | true =>
            toNum pv >>= fun p =>
            toNum lJ >>= fun lost =>
            pure ⟨round3 (bps / 1000000), some j, some (round3 (100 * (lost / p)))⟩
          | false =>
            pure ⟨round3 (bps / 1000000), some j, some 0⟩
        | false =>
          pure ⟨round3 (bps / 1000000), none, none⟩) := by
      unfold parse_iperf3_summary
      rw [h1, bindOk, h2, bindOk, h3, bindOk]
      simp only [toNum, bindOk]
    constructor
    · intro h4
      rw [hbase, h4, bindOk]
      rfl
    · intro j lost p pv h4 h5 h6 h7
      constructor
      · intro hpv htr
        rw [hbase, h4, bindOk, h5, bindOk]
        simp only [toNum, bindOk]
        rw [h6, bindOk, h7, bindOk, htr]
        subst hpv
        simp only [toNum, bindOk]
        rfl
      · intro hfalse
        rw [hbase, h4, bindOk, h5, bindOk]
        simp only [toNum, bindOk]
        rw [h6, bindOk, h7, bindOk, hfalse]
        rfl
  · have h : parse_iperf3_summary
        (Json.obj [("end", Json.obj [("sum", Json.obj [("bits_per_second", Json.num 94000000)])])])
        = .ok ⟨round3 ((94000000 : ℚ) / 1000000), none, none⟩ := rfl
    rw [h]
    norm_num [round3, halfEvenRound]

/-- Witness for C9: a UDP-style summary with `bits_per_second = 2e6`,
`jitter_ms = 3`, `packets = 200`, `lost_packets = 5` hits the
jitter-present branch. -/
theorem iperf_summary_fields_witness :
    parse_iperf3_summary (Json.obj [("end", Json.obj [("sum",
        Json.obj [("bits_per_second", Json.num 2000000), ("jitter_ms", Json.num 3),
                  ("packets", Json.num 200), ("lost_packets", Json.num 5)])])])
      = .ok ⟨round3 ((2000000 : ℚ) / 1000000), some 3,
             some (round3 (100 * ((5 : ℚ) / 200)))⟩ := by
  have h := iperf_summary_fields.1
    (Json.obj [("end", Json.obj [("sum",
        Json.obj [("bits_per_second", Json.num 2000000), ("jitter_ms", Json.num 3),
                  ("packets", Json.num 200), ("lost_packets", Json.num 5)])])])
    (Json.obj [("sum",
        Json.obj [("bits_per_second", Json.num 2000000), ("jitter_ms", Json.num 3),
                  ("packets", Json.num 200), ("lost_packets", Json.num 5)])])
    (Json.obj [("bits_per_second", Json.num 2000000), ("jitter_ms", Json.num 3),
               ("packets", Json.num 200), ("lost_packets", Json.num 5)])
    2000000 rfl rfl rfl
  exact (h.2 3 5 200 (Json.num 200) rfl rfl rfl rfl).1 rfl rfl

/-! ## History store — `models.py` lines 121-145

`models.py` defines `load_from_csv` twice; Python binds the name to the
*second* definition (lines 121-145), which is the one modelled here.  It
scans the tool's CSV file row by row, skips rows whose `data` column is not
valid JSON, keeps a row when no target is given or the payload's
`target`/`server` field equals the target, builds each result as
`{"id": len(results) + 1, "timestamp": row_ts, **payload}` (dict merge:
payload keys override), and returns the results sorted by their
`"timestamp"` entry, most recent first (Python's sort is stable), truncated
to `limit`.  Row timestamps are modelled as `Nat` (ISO-8601 strings sort
chronologically).  The shadowed first definition (lines 44-72) instead
builds string ids `f"{tool}-{i}-{timestamp}"`.  `insertionSort` with the
reflexive-on-ties relation `recentFirst` is a stable descending sort, hence
produces the same list as CPython's stable `sorted(..., reverse=True)`. -/

structure CsvRow where
  ts : Nat
  data : Option (List (String × Json))

def assocGet (kvs : List (String × Json)) (k : String) : Option Json :=
  (kvs.find? (fun p => p.1 == k)).map (fun p => p.2)

def jsonIsStr (o : Option Json) (t : String) : Bool :=
  match o with
  | some (.str s) => s == t
  | _ => false

def rowKeep (target : String) (d : List (String × Json)) : Bool :=
  (target == "") || jsonIsStr (assocGet d "target") target
    || jsonIsStr (assocGet d "server") target

def kept (rows : List CsvRow) (target : String) :
    List (Nat × List (String × Json)) :=
  rows.filterMap (fun row =>
    row.data.bind (fun d => if rowKeep target d then some (row.ts, d) else none))

def upsert (m : List (String × Json)) (kv : String × Json) :
    List (String × Json) :=
  if m.any (fun p => p.1 == kv.1) then
    m.map (fun p => if p.1 == kv.1 then (p.1, kv.2) else p)
  else m ++ [kv]

def mkRec (i : Nat) (ts : Nat) (d : List (String × Json)) :
    List (String × Json) :=
  d.foldl upsert [("id", Json.num i), ("timestamp", Json.num ts)]

def withIds : Nat → List (Nat × List (String × Json)) → List (List (String × Json))
  | _, [] => []
  | i, (ts, d) :: rest => mkRec i ts d :: withIds (i + 1) rest

def recTs (r : List (String × Json)) : ℚ :=
  match assocGet r "timestamp" with
  | some (.num q) => q
  | _ => 0

def recentFirst (a b : List (String × Json)) : Prop := recTs b ≤ recTs a

instance : DecidableRel recentFirst :=
  fun a b => inferInstanceAs (Decidable (recTs b ≤ recTs a))

instance : IsTotal (List (String × Json)) recentFirst :=
  ⟨fun a b => le_total (recTs b) (recTs a)⟩

instance : IsTrans (List (String × Json)) recentFirst :=
  ⟨fun _ _ _ h1 h2 => le_trans h2 h1⟩

def load_from_csv (rows : List CsvRow) (target : String) (limit : Nat) :
    List (List (String × Json)) :=
  (List.insertionSort recentFirst (withIds 1 (kept rows target))).take limit

theorem withIds_length : ∀ (i : Nat) (l : List (Nat × List (String × Json))),
    (withIds i l).length = l.length := by
  intro i l
  induction l generalizing i with
  | nil => rfl
  | cons p rest ih =>
    cases p with
    | mk ts d => simp [withIds, ih]

theorem mem_withIds : ∀ (i : Nat) (l : List (Nat × List (String × Json)))
    (r : List (String × Json)), r ∈ withIds i l →
    ∃ k p, p ∈ l ∧ r = mkRec k p.1 p.2 := by
  intro i l
  induction l generalizing i with
  | nil => intro r hr; cases hr
  | cons p rest ih =>
    cases p with
    | mk ts d =>
      intro r hr
      rcases List.mem_cons.mp hr with hr | hr
      · exact ⟨i, (ts, d), List.mem_cons_self _ _, hr⟩
      · obtain ⟨k, q, hq, hrq⟩ := ih (i + 1) r hr
        exact ⟨k, q, List.mem_cons_of_mem _ hq, hrq⟩

theorem foldl_upsert_eq_append :
    ∀ (d m : List (String × Json)),
      (∀ e ∈ d, ∀ q ∈ m, e.1 ≠ q.1) → (d.map Prod.fst).Nodup →
      d.foldl upsert m = m ++ d := by
  intro d
  induction d with
  | nil => intro m _ _; simp
  | cons kv rest ih =>
    intro m hdisj hnodup
    rw [List.foldl_cons]
    have hany : (m.any (fun p => p.1 == kv.1)) = false := by
      rw [List.any_eq_false]
      intro q hq
      have hne := hdisj kv (List.mem_cons_self _ _) q hq
      simp only [beq_iff_eq]
      exact fun hc => hne hc.symm
    have hup : upsert m kv = m ++ [kv] := by
      unfold upsert
      rw [hany]
      simp
    rw [hup, ih (m ++ [kv]) ?_ ?_]
    · simp
    · intro e he q hq
      rcases List.mem_append.mp hq with hq | hq
      · exact hdisj e (List.mem_cons_of_mem _ he) q hq
      · have hq' : q = kv := by simpa using hq
        subst hq'
        simp only [List.map_cons, List.nodup_cons] at hnodup
        intro hcontra
        exact hnodup.1 (hcontra ▸ List.mem_map_of_mem Prod.fst he)
    · simp only [List.map_cons, List.nodup_cons] at hnodup
      exact hnodup.2

theorem mkRec_eq_append (i ts : Nat) (d : List (String × Json))
    (hkeys : ∀ e ∈ d, e.1 ≠ "id" ∧ e.1 ≠ "timestamp")
    (hnodup : (d.map Prod.fst).Nodup) :
    mkRec i ts d = ("id", Json.num i) :: ("timestamp", Json.num ts) :: d := by
  unfold mkRec
  rw [foldl_upsert_eq_append d _ ?_ hnodup]
  · rfl
  · intro e he q hq
    rcases List.mem_cons.mp hq with hq | hq
    · subst hq; exact (hkeys e he).1
    · have : q = ("timestamp", Json.num ts) := by simpa using hq
      subst this; exact (hkeys e he).2

theorem recTs_mkRec (i ts : Nat) (d : List (String × Json))
    (hkeys : ∀ e ∈ d, e.1 ≠ "id" ∧ e.1 ≠ "timestamp")
    (hnodup : (d.map Prod.fst).Nodup) :
    recTs (mkRec i ts d) = (ts : ℚ) := by
  rw [mkRec_eq_append i ts d hkeys hnodup]
  rfl

theorem assocGet_mkRec (i ts : Nat) (d : List (String × Json)) (k : String)
    (hk1 : k ≠ "id") (hk2 : k ≠ "timestamp")
    (hkeys : ∀ e ∈ d, e.1 ≠ "id" ∧ e.1 ≠ "timestamp")
    (hnodup : (d.map Prod.fst).Nodup) :
    assocGet (mkRec i ts d) k = assocGet d k := by
  rw [mkRec_eq_append i ts d hkeys hnodup]
  unfold assocGet
  rw [List.find?_cons_of_neg, List.find?_cons_of_neg]
  · simp only [beq_iff_eq]
    exact fun h => hk2 h.symm
  · simp only [beq_iff_eq]
    exact fun h => hk1 h.symm

/-- C10: a history query with a non-empty target and a limit over a store
whose well-formed matching rows outnumber the limit returns exactly `limit`
records, sorted most-recent-first by their surfaced timestamp field, and
every returned record's embedded `target` or `server` field equals the
queried target.  (Well-formed: payload objects with distinct keys and no
`id`/`timestamp` key of their own.) -/
theorem history_query_contract (rows : List CsvRow) (target : String) (limit : Nat)
    (htgt : target ≠ "")
    (hwf : ∀ p ∈ kept rows target,
        (∀ e ∈ p.2, e.1 ≠ "id" ∧ e.1 ≠ "timestamp") ∧ (p.2.map Prod.fst).Nodup)
    (hN : limit < (kept rows target).length) :
    (load_from_csv rows target limit).length = limit
    ∧ List.Sorted recentFirst (load_from_csv rows target limit)
    ∧ ∀ r ∈ load_from_csv rows target limit,
        jsonIsStr (assocGet r "target") target = true
        ∨ jsonIsStr (assocGet r "server") target = true := by
  have hperm := List.perm_insertionSort recentFirst (withIds 1 (kept rows target))
  refine ⟨?_, ?_, ?_⟩
  · rw [load_from_csv, List.length_take, hperm.length_eq, withIds_length]
    omega
  · exact List.Pairwise.sublist (List.take_sublist _ _)
      (List.sorted_insertionSort recentFirst _)
  · intro r hr
    have hr1 : r ∈ List.insertionSort recentFirst (withIds 1 (kept rows target)) :=
      List.mem_of_mem_take hr
    have hr2 : r ∈ withIds 1 (kept rows target) := hperm.mem_iff.mp hr1
    obtain ⟨k, p, hp, rfl⟩ := mem_withIds 1 _ r hr2
    have hkeep : rowKeep target p.2 = true := by
      unfold kept at hp
      obtain ⟨row, hrow, hbind⟩ := List.mem_filterMap.mp hp
      cases hd : row.data with
      | none => rw [hd] at hbind; cases hbind
      | some d =>
        rw [hd] at hbind
        by_cases hk : rowKeep target d = true
        · have : (row.ts, d) = p := by
            simpa [hk] using hbind
          rw [← this]
          exact hk
        · simp [Option.bind, hk] at hbind
    obtain ⟨hkeys, hnodup⟩ := hwf p hp
    rw [assocGet_mkRec k p.1 p.2 "target" (by decide) (by decide) hkeys hnodup,
        assocGet_mkRec k p.1 p.2 "server" (by decide) (by decide) hkeys hnodup]
    unfold rowKeep at hkeep
    have hT : (target == "") = false := beq_eq_false_iff_ne.mpr htgt
    rw [hT] at hkeep
    simp only [Bool.false_or, Bool.or_eq_true] at hkeep
    exact hkeep

/-- Witness for C10: a five-row store (three matching rows with
timestamps 1, 3, 5, one row for another target, one malformed row) queried
with limit 2. -/
theorem history_query_contract_witness :
    (load_from_csv [⟨1, some [("target", Json.str "a")]⟩,
        ⟨3, some [("target", Json.str "a")]⟩,
        ⟨2, some [("server", Json.str "b")]⟩,
        ⟨5, some [("target", Json.str "a")]⟩,
        ⟨4, none⟩] "a" 2).length = 2
    ∧ List.Sorted recentFirst (load_from_csv [⟨1, some [("target", Json.str "a")]⟩,
        ⟨3, some [("target", Json.str "a")]⟩,
        ⟨2, some [("server", Json.str "b")]⟩,
        ⟨5, some [("target", Json.str "a")]⟩,
        ⟨4, none⟩] "a" 2)
    ∧ ∀ r ∈ load_from_csv [⟨1, some [("target", Json.str "a")]⟩,
        ⟨3, some [("target", Json.str "a")]⟩,
        ⟨2, some [("server", Json.str "b")]⟩,
        ⟨5, some [("target", Json.str "a")]⟩,
        ⟨4, none⟩] "a" 2,
        jsonIsStr (assocGet r "target") "a" = true
        ∨ jsonIsStr (assocGet r "server") "a" = true :=
  history_query_contract _ "a" 2 (by decide) (by decide) (by decide)

/-- C3 (code bug evidence): the effective `load_from_csv` surfaces
`id = len(results) + 1` — an integer, not a string — assigned per query:
two distinct stored records (targets `"a"` and `"b"` of the same store)
both surface id `1`, so ids are neither strings nor unique within the
store; the shadowed first `load_from_csv` (models.py lines 44-72) builds
exactly the stable unique string ids the claim describes. -/
theorem history_ids_not_unique_strings :
    (load_from_csv [⟨10, some [("target", Json.str "a")]⟩,
        ⟨11, some [("target", Json.str "b")]⟩] "a" 50).map (fun r => assocGet r "id")
      = [some (Json.num 1)]
    ∧ (load_from_csv [⟨10, some [("target", Json.str "a")]⟩,
        ⟨11, some [("target", Json.str "b")]⟩] "b" 50).map (fun r => assocGet r "id")
      = [some (Json.num 1)]
    ∧ (load_from_csv [⟨10, some [("target", Json.str "a")]⟩,
        ⟨11, some [("target", Json.str "b")]⟩] "a" 50).map (fun r => assocGet r "target")
      = [some (Json.str "a")]
    ∧ (load_from_csv [⟨10, some [("target", Json.str "a")]⟩,
        ⟨11, some [("target", Json.str "b")]⟩] "b" 50).map (fun r => assocGet r "target")
      = [some (Json.str "b")]
    ∧ ∀ s : String, Json.num 1 ≠ Json.str s := by
  refine ⟨rfl, rfl, rfl, rfl, fun s h => Json.noConfusion h⟩
